import Mathlib

/-!
Shallow embedding of the income-map pipeline (`src/app.py`) and proofs about
its schema resolver, aggregator, renderer styling and table presenter.

Conventions of the embedding:
* a pandas `DataFrame` of raw CSV text is a list of columns, each a column
  name paired with its cells; a missing cell (`NaN` under `dtype=str`) is
  `none`;
* numbers are `ℚ`; a float `nan` produced by `pd.to_numeric(errors="coerce")`
  or by a median over an empty set is `none : Option ℚ`;
* Python dicts built from lists of pairs are association lists where a later
  binding shadows an earlier one (`dictGet` searches the reversed list);
* the `branca` colormap is an opaque parameter `cmap : Option ℚ → String`
  (its argument models the float fed to it, `none` standing for `nan`).
-/

namespace App

/-- ASCII lowercasing of one character, as `str.lower` acts on the
column names appearing here. -/
def lcChar (c : Char) : Char :=
  if 65 ≤ c.toNat && c.toNat ≤ 90 then Char.ofNat (c.toNat + 32) else c

/-- Lowercase a whole string. -/
def lcStr (s : String) : String := String.mk (s.data.map lcChar)

/-- The characters Python's `\s` matches in ASCII text. -/
def isPySpace (c : Char) : Bool :=
  c == ' ' || c == '\t' || c == '\n' || c == '\r' || c.toNat == 11 || c.toNat == 12

/-- A separator admitted between `income` and the year: `[\s_-]`. -/
def isSepChar (c : Char) : Bool := isPySpace c || c == '_' || c == '-'

def isDigitChar (c : Char) : Bool := 48 ≤ c.toNat && c.toNat ≤ 57

/-- A lower-case ASCII letter (the `[a-z]?` tail of the income pattern,
checked after lowercasing, which is how `re.IGNORECASE` behaves on it). -/
def isLowerAlpha (c : Char) : Bool := 97 ≤ c.toNat && c.toNat ≤ 122

/-- Strip an expected leading segment, returning the remainder. -/
def stripLead : List Char → List Char → Option (List Char)
  | [], l => some l
  | _ :: _, [] => none
  | p :: ps, c :: cs => if p == c then stripLead ps cs else none

/-- Decimal digits of `n`, most significant first (fuel-based). -/
def natDigitsAux : Nat → Nat → List Char
  | 0, _ => []
  | fuel + 1, n =>
    if n = 0 then [] else natDigitsAux fuel (n / 10) ++ [Char.ofNat (48 + n % 10)]

def natDigits (n : Nat) : List Char :=
  if n = 0 then ['0'] else natDigitsAux n n

/-- Core of the income-column regex `^income[\s_-]?{year}[a-z]?$` on an
already-lowercased character list. -/
def matchesLC (year : Nat) (cs : List Char) : Bool :=
  match stripLead ['i', 'n', 'c', 'o', 'm', 'e'] cs with
  | none => false
  | some r =>
    let r1 := match r with
      | c :: tl => if isSepChar c then tl else c :: tl
      | [] => []
    match stripLead (natDigits year) r1 with
    | none => false
    | some [] => true
    | some [c] => isLowerAlpha c
    | some (_ :: _ :: _) => false

/-- `pick_income_col`'s candidate test: the case-insensitive regex
`(?i)^income[\s_-]?{year}[a-z]?$` applied to a column name. -/
def matchesIncomeCol (year : Nat) (name : String) : Bool :=
  matchesLC year (name.data.map lcChar)

/-- One raw column: its name and its cells (a missing cell is `none`). -/
abbrev Col := String × List (Option String)

/-- `pd.to_numeric(·, errors="coerce")` on one text cell: an optionally
signed decimal with optional fraction and exponent, surrounded by optional
whitespace; anything else coerces to `none` (`NaN`). -/
def parseNumeric (s : String) : Option ℚ :=
  let cs := ((s.data.dropWhile isPySpace).reverse.dropWhile isPySpace).reverse
  let sgn : ℚ × List Char :=
    match cs with
    | '+' :: tl => (1, tl)
    | '-' :: tl => (-1, tl)
    | _ => (1, cs)
  let intd := sgn.2.takeWhile isDigitChar
  let rest1 := sgn.2.dropWhile isDigitChar
  let frac : List Char × List Char :=
    match rest1 with
    | '.' :: tl => (tl.takeWhile isDigitChar, tl.dropWhile isDigitChar)
    | _ => ([], rest1)
  if intd.isEmpty && frac.1.isEmpty then none
  else
    let dval : List Char → Nat := fun ds => ds.foldl (fun n c => 10 * n + (c.toNat - 48)) 0
    let mant : ℚ := sgn.1 * ((dval intd : ℚ) * 10 ^ frac.1.length + (dval frac.1 : ℚ)) / 10 ^ frac.1.length
    match frac.2 with
    | [] => some mant
    | e :: tl =>
      if e == 'e' || e == 'E' then
        let esgn : Bool × List Char :=
          match tl with
          | '+' :: t => (false, t)
          | '-' :: t => (true, t)
          | _ => (false, tl)
        let ed := esgn.2.takeWhile isDigitChar
        if ed.isEmpty || !(esgn.2.dropWhile isDigitChar).isEmpty then none
        else some (if esgn.1 then mant / 10 ^ dval ed else mant * 10 ^ dval ed)
      else none

/-- Count of cells of a column that `pd.to_numeric(errors="coerce")` parses:
`pd.to_numeric(df[c], errors="coerce").notna().sum()`. -/
def countParseable (cells : List (Option String)) : Nat :=
  (cells.filterMap (fun c => c.bind parseNumeric)).length

/-- Python's `max(x :: xs, key)`: the first element attaining the maximal
key (a later element replaces the current best only when strictly larger). -/
def maxByFirst {α : Type} (key : α → Nat) (x : α) (xs : List α) : α :=
  xs.foldl (fun b a => if key b < key a then a else b) x

/-- `pick_income_col(df, year)`: among columns matching the year pattern,
the one with the most parseable-numeric cells (first wins ties); `none`
when no column matches. -/
def pickIncomeCol (cols : List Col) (year : Nat) : Option String :=
  match cols.filter (fun c => matchesIncomeCol year c.1) with
  | [] => none
  | c :: cs => some ((maxByFirst (fun c => countParseable c.2) c cs).1)

/-- `first_match(df, options)`: builds `{c.lower(): c}` (later columns
shadow earlier ones) and returns the stored column for the first option
present as a key; options are compared verbatim. -/
def first_match (cols : List String) (options : List String) : Option String :=
  options.findSome? (fun o => cols.reverse.find? (fun c => lcStr c == o))

/-- `find_col`'s normalization: lowercase then drop spaces, underscores
and hyphens. -/
def normKey (s : String) : String :=
  String.mk ((s.data.map lcChar).filter (fun c => !(c == ' ' || c == '_' || c == '-')))

/-- `find_col(df, *aliases)`: both sides normalized via `normKey`; the
first alias with a normalized match returns the stored original column. -/
def find_col (cols : List String) (aliases : List String) : Option String :=
  aliases.findSome? (fun a => cols.reverse.find? (fun c => normKey c == normKey a))

/-- Aliases tried for the state-code column of the income table. -/
def stateAliases : List String := ["state", "state_abbr", "stateabbr"]

/-- Aliases tried for the county column of the income table. -/
def countyAliases : List String := ["county", "county_name"]

/-- Aliases tried for the full-name column of the abbreviation table. -/
def nameAliases : List String := ["name", "state", "statename"]

/-- Aliases tried for the 2-letter-code column of the abbreviation table. -/
def a2Aliases : List String := ["abbreviation", "alpha-2", "alpha2", "abbr", "code"]

/-- A single-quote character, written by code point to build Python `repr`
output of string lists. -/
def qm : Char := Char.ofNat 39

/-- Wrap a string in single quotes, as Python `repr` prints list elements. -/
def wrapQ (s : String) : String := String.mk [qm] ++ s ++ String.mk [qm]

/-- Join with `", "`, as inside a Python list repr. -/
def sepJoin : List String → String
  | [] => ""
  | [x] => x
  | x :: y :: tl => x ++ ", " ++ sepJoin (y :: tl)

/-- `repr` of a Python list of strings, e.g. `['state', 'county']`. -/
def pyRepr (xs : List String) : String :=
  "[" ++ sepJoin (xs.map wrapQ) ++ "]"

/-- The semantic fields the income-table resolver failed on, with the exact
marker strings the code appends to `missing`. -/
def missingOf (cols : List Col) : List String :=
  (if (pickIncomeCol cols 2015).isNone then ["income-2015*"] else []) ++
  (if (pickIncomeCol cols 1989).isNone then ["income-1989* (may be income-1989a/b)"] else []) ++
  (if (first_match (cols.map (·.1)) stateAliases).isNone then ["state"] else []) ++
  (if (first_match (cols.map (·.1)) countyAliases).isNone then ["county"] else [])

/-- The `st.error` text for an unresolvable income schema:
`f"Input CSV is missing expected columns: {missing}\nFound: {list(income.columns)}"`. -/
def incomeErrMsg (missing : List String) (names : List String) : String :=
  "Input CSV is missing expected columns: " ++ pyRepr missing ++ "\nFound: " ++ pyRepr names

/-- The `st.error` text for an unresolvable abbreviation schema:
`f"Unexpected schema for state list. Columns: {list(abbrs.columns)}"`. -/
def abbrErrMsg (names : List String) : String :=
  "Unexpected schema for state list. Columns: " ++ pyRepr names

/-- Resolution of the four income-table columns; on any failure the load
stops (`st.stop`) with the `st.error` message, modelled as `Except.error`. -/
def resolveIncomeCols (cols : List Col) :
    Except String (String × String × String × String) :=
  match pickIncomeCol cols 2015, pickIncomeCol cols 1989,
      first_match (cols.map (·.1)) stateAliases,
      first_match (cols.map (·.1)) countyAliases with
  | some a, some b, some c, some d => .ok (a, b, c, d)
  | _, _, _, _ => .error (incomeErrMsg (missingOf cols) (cols.map (·.1)))

/-- Resolution of the abbreviation table's name and code columns; failure
stops the load with the schema error message. -/
def resolveAbbrCols (names : List String) : Except String (String × String) :=
  match find_col names nameAliases, find_col names a2Aliases with
  | some n, some a => .ok (n, a)
  | _, _ => .error (abbrErrMsg names)

/-- One loaded county record after `rename` and `to_numeric`: any field may
be missing (`NaN`). -/
structure Row where
  state : Option String
  county : Option String
  income1989 : Option ℚ
  income2015 : Option ℚ
deriving DecidableEq

/-- Build a record from raw cells: the income cells go through
`pd.to_numeric(errors="coerce")`, a missing cell stays missing. -/
def mkRow (st cty i89 i15 : Option String) : Row :=
  ⟨st, cty, i89.bind parseNumeric, i15.bind parseNumeric⟩

/-- Look a column up by name (`df[c]`). -/
def getCol (cols : List Col) (name : String) : List (Option String) :=
  ((cols.find? (fun p => p.1 == name)).map (·.2)).getD []

/-- Rows of the income table once the four columns are resolved. -/
def loadRows (cols : List Col) (c15 c89 cst ccty : String) : List Row :=
  (List.zip (getCol cols cst)
    (List.zip (getCol cols ccty) (List.zip (getCol cols c89) (getCol cols c15)))).map
    (fun p => mkRow p.1 p.2.1 p.2.2.1 p.2.2.2)

/-- One `StateAggregate` row of `state_medians`. -/
structure Agg where
  state : String
  median2015 : Option ℚ
  median1989 : Option ℚ
  nCounties : Nat
deriving DecidableEq

/-- Lexicographic strict comparison of character lists by code point, as
Python compares strings. -/
def ltB : List Char → List Char → Bool
  | [], [] => false
  | [], _ :: _ => true
  | _ :: _, [] => false
  | a :: as, b :: bs =>
    if a.toNat < b.toNat then true
    else if b.toNat < a.toNat then false
    else ltB as bs

/-- Non-strict string order: `s ≤ t` iff `¬ t < s`. -/
def strLeB (s t : String) : Bool := !(ltB t.data s.data)

/-- `(· ≤ ·)` as sorting relation on strings. -/
def strLE (a b : String) : Prop := strLeB a b = true

instance : DecidableRel strLE := fun _ _ => inferInstanceAs (Decidable (_ = true))

/-- The distinct states of the table, sorted — the group keys of
`groupby("state")` (a missing state is dropped from grouping). -/
def statesOf (rows : List Row) : List String :=
  List.insertionSort strLE ((rows.filterMap (·.state)).dedup)

/-- The group of records for one state code (exact string match). -/
def groupRows (rows : List Row) (s : String) : List Row :=
  rows.filter (fun r => r.state == some s)

/-- Statistical median of the non-null values: middle of the sorted list,
or the mean of the two middles; `none` on an empty list (pandas `median`
with `skipna`). -/
def median (l : List ℚ) : Option ℚ :=
  let s := List.insertionSort (· ≤ ·) l
  if s.length = 0 then none
  else if s.length % 2 = 1 then s.get? (s.length / 2)
  else do
    let a ← s.get? (s.length / 2 - 1)
    let b ← s.get? (s.length / 2)
    pure ((a + b) / 2)

/-- The aggregate row for one state: per-year medians over the non-null
values and the pandas `("county", "count")` of non-null county cells. -/
def mkAgg (rows : List Row) (s : String) : Agg :=
  let g := groupRows rows s
  ⟨s, median (g.filterMap (·.income2015)), median (g.filterMap (·.income1989)),
    (g.filterMap (·.county)).length⟩

/-- `state_medians`: one aggregate per distinct state, keys sorted. -/
def stateMedians (rows : List Row) : List Agg :=
  (statesOf rows).map (mkAgg rows)

/-- The whole load-resolve-aggregate pipeline; rendering only happens on an
`ok` result, so an `error` is a halt before any aggregation or rendering. -/
def runPipeline (cols : List Col) (abbrNames : List String) : Except String (List Agg) :=
  match resolveIncomeCols cols with
  | .error e => .error e
  | .ok (c15, c89, cst, ccty) =>
    match resolveAbbrCols abbrNames with
    | .error e => .error e
    | .ok _ => .ok (stateMedians (loadRows cols c15 c89 cst ccty))

/-- `dict` built from a list of pairs; a later binding for the same key
shadows an earlier one, and `dictGet` is Python's `d.get(k)`. -/
def dictGet {α : Type} (l : List (String × α)) (k : String) : Option α :=
  (l.reverse.find? (fun p => p.1 == k)).map (·.2)

/-- The `med_2015_by_alpha2` dict: state code to 2015 median (a `none`
value stands for a stored `nan`). -/
def med2015Dict (rows : List Row) : List (String × Option ℚ) :=
  (stateMedians rows).map (fun a => (a.state, a.median2015))

/-- The `med_1989_by_alpha2` dict. -/
def med1989Dict (rows : List Row) : List (String × Option ℚ) :=
  (stateMedians rows).map (fun a => (a.state, a.median1989))

/-- The folium style dict returned per feature. -/
structure Style where
  fillColor : Option String
  fillOpacity : ℚ
  weight : ℚ
  color : String
deriving DecidableEq

/-- The "no data" style: gray border, no fill, reduced opacity. -/
def noDataStyle : Style := ⟨none, 1/5, 1/2, "gray"⟩

/-- `style_function(feature)`: resolve the feature name to a code, the code
to a 2015 median; any failed lookup yields the no-data style, otherwise the
interpolated fill at 0.8 opacity with a white 0.7 border.  `cmap` is the
branca colormap, opaque here; its argument is the stored float (`none` for
a stored `nan`). -/
def style_function (n2a : List (String × String)) (med : List (String × Option ℚ))
    (cmap : Option ℚ → String) (name : String) : Style :=
  match dictGet n2a name with
  | none => noDataStyle
  | some a2 =>
    match dictGet med a2 with
    | none => noDataStyle
    | some v => ⟨some (cmap v), 4/5, 7/10, "white"⟩

/-- The 2015 value interpolated into the tooltip text
(`med_2015_by_alpha2.get(a2, float("nan"))`, with `a2` possibly `None`);
`none` models `nan`. -/
def tooltipVal2015 (n2a : List (String × String)) (med : List (String × Option ℚ))
    (name : String) : Option ℚ :=
  match dictGet n2a name with
  | none => none
  | some a2 =>
    match dictGet med a2 with
    | none => none
    | some v => v

/-- A displayed table row: `(County, Income 1989, Income 2015)`. -/
abbrev Entry := Option String × Option ℚ × Option ℚ

/-- Projection of a record to the displayed columns. -/
def proj (r : Row) : Entry := (r.county, r.income1989, r.income2015)

/-- Sort key order on entries: by county name, a missing county last
(pandas `sort_values` default `na_position="last"`). -/
def leCounty (a b : Entry) : Bool :=
  match a.1, b.1 with
  | some x, some y => strLeB x y
  | some _, none => true
  | none, some _ => false
  | none, none => true

/-- `leCounty` as a sorting relation. -/
def entryLE (a b : Entry) : Prop := leCounty a b = true

instance : DecidableRel entryLE := fun _ _ => inferInstanceAs (Decidable (_ = true))

/-- `df_state`: the selected state's records, projected and sorted by
county name. -/
def df_state (rows : List Row) (s : String) : List Entry :=
  List.insertionSort entryLE ((rows.filter (fun r => r.state == some s)).map proj)

/-- The label of the synthetic median row. -/
def medLabel : String := "— State Median —"

/-- `df_show`: the sorted county table followed by one synthetic row whose
incomes are the medians of the displayed columns. -/
def df_show (rows : List Row) (s : String) : List Entry :=
  let t := df_state rows s
  t ++ [(some medLabel,
    median (t.filterMap (fun p => p.2.1)),
    median (t.filterMap (fun p => p.2.2)))]

/-- Whether `needle` starts `hay`. -/
def startsB : List Char → List Char → Bool
  | [], _ => true
  | _ :: _, [] => false
  | a :: as, b :: bs => a == b && startsB as bs

/-- Whether `needle` occurs contiguously in `hay`. -/
def subB (n : List Char) : List Char → Bool
  | [] => n.isEmpty
  | b :: t => startsB n (b :: t) || subB n t

/-- Substring test on strings (used to state what an error message
mentions). -/
def strHas (hay needle : String) : Bool := subB needle.data hay.data

/-! Concrete inputs used as witnesses and counterexamples. -/

/-- A table whose `income_1989b` column has more parseable cells than
`income-1989a`. -/
def c1Bad : List Col :=
  [("income-2015", [some "1"]), ("income-1989a", [some "x"]), ("income_1989b", [some "7"])]

/-- A table where `income-1989a` is the only 1989-pattern column. -/
def c1Good : List Col := [("income-2015", [some "1"]), ("income-1989a", [some "2"])]

/-- Two columns matching the 1989 pattern, the second with strictly more
parseable cells. -/
def c2Cols : List Col :=
  [("income-1989", [some "1", some "x"]), ("income-1989a", [some "1", some "2"])]

/-- The NE example rows of the spec: 1989 values 10, 20, 30 and 2015
values 40, 50, 60. -/
def neRows : List Row :=
  [⟨some "NE", some "Adams", some 10, some 40⟩,
   ⟨some "NE", some "Buffalo", some 20, some 50⟩,
   ⟨some "NE", some "Cass", some 30, some 60⟩]

/-- The aggregate the NE example must produce. -/
def neAgg : Agg := ⟨"NE", some 50, some 20, 3⟩

/-- Two NE records, one with a missing county name. -/
def c6Rows : List Row :=
  [⟨some "NE", none, some 10, some 20⟩,
   ⟨some "NE", some "Lancaster", some 30, some 40⟩]

/-- An income table offering only a county column. -/
def c4IncomeCols : List Col := [("county", [some "Adams"])]

/-- An abbreviation table with unusable column names. -/
def c4AbbrNames : List String := ["foo", "bar"]

/-- A one-entry abbreviation map. -/
def c7Map : List (String × String) := [("Nebraska", "NE")]

/-- A one-entry 2015-median dict. -/
def c7Med : List (String × Option ℚ) := [("NE", some 50)]

/-- A concrete stand-in for the branca colormap. -/
def c7Cmap : Option ℚ → String := fun _ => "#123456"

/-- The table-presenter example: NE with (Lancaster, 50, 90) and
(Douglas, 60, 100). -/
def exRows : List Row :=
  [⟨some "NE", some "Lancaster", some 50, some 90⟩,
   ⟨some "NE", some "Douglas", some 60, some 100⟩]

/-- A record whose 1989 income cell is unparseable text and whose 2015
cell is missing. -/
def c10Bad : Row := mkRow (some "NE") (some "Arthur") (some "abc") none

/-- A single well-formed NE record. -/
def c10Rows : List Row := [⟨some "NE", some "Banner", some 30, some 40⟩]

/-! Helper lemmas. -/

theorem maxByFirst_mem {α : Type} (key : α → Nat) :
    ∀ (xs : List α) (x : α), maxByFirst key x xs ∈ x :: xs := by
  intro xs
  induction xs with
  | nil => intro x; simp [maxByFirst]
  | cons a as ih =>
    intro x
    have h : maxByFirst key x (a :: as) =
        maxByFirst key (if key x < key a then a else x) as := by
      simp [maxByFirst]
    rw [h]
    rcases List.mem_cons.mp (ih (if key x < key a then a else x)) with he | hm
    · rw [he]
      split
      · exact List.mem_cons_of_mem _ (List.mem_cons_self a as)
      · exact List.mem_cons_self _ _
    · exact List.mem_cons_of_mem _ (List.mem_cons_of_mem _ hm)

theorem maxByFirst_strict {α : Type} (key : α → Nat) :
    ∀ (xs : List α) (x c : α), c ∈ x :: xs →
      (∀ y ∈ x :: xs, y ≠ c → key y < key c) → maxByFirst key x xs = c := by
  intro xs
  induction xs with
  | nil =>
    intro x c hc _
    have hx : c = x := by simpa using hc
    simp [maxByFirst, hx]
  | cons a as ih =>
    intro x c hc hdom
    have hstep : maxByFirst key x (a :: as) =
        maxByFirst key (if key x < key a then a else x) as := by
      simp [maxByFirst]
    rw [hstep]
    have hbcase : (if key x < key a then a else x) = a ∨
        (if key x < key a then a else x) = x := by
      split
      · exact Or.inl rfl
      · exact Or.inr rfl
    apply ih
    · rcases List.mem_cons.mp hc with h1 | h12
      · subst h1
        by_cases hac : a = c
        · subst hac
          rcases hbcase with hb | hb <;> rw [hb] <;> exact List.mem_cons_self _ _
        · have hlt : key a < key c := hdom a (List.mem_cons_of_mem _ (List.mem_cons_self _ _)) hac
          have hnl : ¬ key c < key a := by omega
          rw [if_neg hnl]
          exact List.mem_cons_self _ _
      · rcases List.mem_cons.mp h12 with h2 | h3
        · subst h2
          by_cases hxc : x = c
          · subst hxc
            rcases hbcase with hb | hb <;> rw [hb] <;> exact List.mem_cons_self _ _
          · have hlt : key x < key c := hdom x (List.mem_cons_self _ _) hxc
            rw [if_pos hlt]
            exact List.mem_cons_self _ _
        · exact List.mem_cons_of_mem _ h3
    · intro y hy hyc
      rcases List.mem_cons.mp hy with h1 | h2
      · subst h1
        rcases hbcase with hb | hb <;> rw [hb] at hyc ⊢
        · exact hdom a (List.mem_cons_of_mem _ (List.mem_cons_self _ _)) hyc
        · exact hdom x (List.mem_cons_self _ _) hyc
      · exact hdom y (List.mem_cons_of_mem _ (List.mem_cons_of_mem _ h2)) hyc

theorem findSome?_ex {α β : Type} {f : α → Option β} :
    ∀ {l : List α} {b : β}, l.findSome? f = some b → ∃ a, a ∈ l ∧ f a = some b := by
  intro l
  induction l with
  | nil => intro b h; simp [List.findSome?] at h
  | cons x t ih =>
    intro b h
    rw [List.findSome?_cons] at h
    cases hfx : f x with
    | some v =>
      rw [hfx] at h
      exact ⟨x, List.mem_cons_self _ _, by simpa [hfx] using h⟩
    | none =>
      rw [hfx] at h
      obtain ⟨a, ha, hfa⟩ := ih h
      exact ⟨a, List.mem_cons_of_mem _ ha, hfa⟩

theorem findSome?_isSome_of {α β : Type} {f : α → Option β} {l : List α} {a : α}
    (ha : a ∈ l) (hf : (f a).isSome = true) : (l.findSome? f).isSome = true := by
  induction l with
  | nil => simp at ha
  | cons x t ih =>
    rw [List.findSome?_cons]
    cases hfx : f x with
    | some v => simp
    | none =>
      rcases List.mem_cons.mp ha with he | hm
      · subst he; rw [hfx] at hf; simp at hf
      · exact ih hm

theorem findSome?_first {α β : Type} {f : α → Option β} :
    ∀ (l : List α) (i : Nat) (a : α), l[i]? = some a → (f a).isSome = true →
      (∀ j a', j < i → l[j]? = some a' → f a' = none) →
      ∃ b, l.findSome? f = some b ∧ f a = some b := by
  intro l
  induction l with
  | nil => intro i a ha _ _; simp at ha
  | cons x t ih =>
    intro i a ha hf hpre
    cases i with
    | zero =>
      simp at ha
      subst ha
      obtain ⟨b, hb⟩ := Option.isSome_iff_exists.mp hf
      exact ⟨b, by rw [List.findSome?_cons, hb], hb⟩
    | succ j =>
      have hx : f x = none := hpre 0 x (Nat.succ_pos j) (by simp)
      have hpre' : ∀ j' a', j' < j → t[j']? = some a' → f a' = none := by
        intro j' a' hj ha'
        exact hpre (j' + 1) a' (Nat.succ_lt_succ hj) (by simpa using ha')
      obtain ⟨b, hb1, hb2⟩ := ih j a (by simpa using ha) hf hpre'
      exact ⟨b, by rw [List.findSome?_cons, hx]; exact hb1, hb2⟩

theorem ltB_asymm : ∀ a b, ltB a b = true → ltB b a = false := by
  intro a
  induction a with
  | nil =>
    intro b hb
    cases b with
    | nil => simp [ltB] at hb
    | cons y ys => simp [ltB]
  | cons x xs ih =>
    intro b hb
    cases b with
    | nil => simp [ltB] at hb
    | cons y ys =>
      simp only [ltB] at hb ⊢
      by_cases h1 : x.toNat < y.toNat
      · have h2 : ¬ y.toNat < x.toNat := by omega
        simp [h1, h2]
      · by_cases h2 : y.toNat < x.toNat
        · simp [h1, h2] at hb
        · simp [h1, h2] at hb ⊢
          exact ih ys hb

theorem ltB_le_trans : ∀ s t u : List Char,
    ltB t s = false → ltB u t = false → ltB u s = false := by
  intro s
  induction s with
  | nil =>
    intro t u _ _
    cases u <;> simp [ltB]
  | cons x xs ih =>
    intro t u h1 h2
    cases t with
    | nil => simp [ltB] at h1
    | cons y ys =>
      cases u with
      | nil => simp [ltB] at h2
      | cons z zs =>
        simp only [ltB] at h1 h2 ⊢
        by_cases hyx : y.toNat < x.toNat
        · simp [hyx] at h1
        · by_cases hzy : z.toNat < y.toNat
          · simp [hzy] at h2
          · by_cases hxy : x.toNat < y.toNat
            · have hzx : ¬ z.toNat < x.toNat := by omega
              have hxz : x.toNat < z.toNat := by omega
              simp [hzx, hxz]
            · have hxy' : x.toNat = y.toNat := by omega
              simp [hyx, hxy] at h1
              by_cases hyz : y.toNat < z.toNat
              · have hzx : ¬ z.toNat < x.toNat := by omega
                have hxz : x.toNat < z.toNat := by omega
                simp [hzx, hxz]
              · simp [hzy, hyz] at h2
                have hzx : ¬ z.toNat < x.toNat := by omega
                have hxz : ¬ x.toNat < z.toNat := by omega
                simp [hzx, hxz]
                exact ih ys zs h1 h2

theorem ltB_total_not : ∀ a b, ltB a b = false ∨ ltB b a = false := by
  intro a b
  by_cases h : ltB a b = true
  · exact Or.inr (ltB_asymm a b h)
  · exact Or.inl (by simpa using h)

instance : IsTotal String strLE :=
  ⟨by
    intro a b
    rcases ltB_total_not b.data a.data with h | h
    · exact Or.inl (by simp [strLE, strLeB, h])
    · exact Or.inr (by simp [strLE, strLeB, h])⟩

instance : IsTrans String strLE :=
  ⟨by
    intro a b c h1 h2
    simp only [strLE, strLeB, Bool.not_eq_true', Bool.not_eq_true] at h1 h2 ⊢
    exact ltB_le_trans a.data b.data c.data h1 h2⟩

instance : IsTotal Entry entryLE :=
  ⟨by
    intro a b
    simp only [entryLE, leCounty]
    cases ha : a.1 with
    | none => cases hb : b.1 <;> simp
    | some x =>
      cases hb : b.1 with
      | none => simp
      | some y =>
        rcases ltB_total_not y.data x.data with h | h
        · exact Or.inl (by simp [strLeB, h])
        · exact Or.inr (by simp [strLeB, h])⟩

instance : IsTrans Entry entryLE :=
  ⟨by
    intro a b c h1 h2
    simp only [entryLE, leCounty] at h1 h2 ⊢
    cases ha : a.1 with
    | none =>
      rw [ha] at h1
      cases hb : b.1 with
      | none =>
        rw [hb] at h2
        cases hc : c.1 with
        | none => simp
        | some z => rw [hc] at h2; simp at h2
      | some y => rw [hb] at h1; simp at h1
    | some x =>
      cases hc : c.1 with
      | none => simp
      | some z =>
        rw [ha] at h1
        cases hb : b.1 with
        | none => rw [hb] at h2; rw [hc] at h2; simp at h2
        | some y =>
          rw [hb] at h1 h2
          rw [hc] at h2
          simp only [strLeB, Bool.not_eq_true', Bool.not_eq_true] at h1 h2 ⊢
          exact ltB_le_trans x.data y.data z.data h1 h2⟩

theorem median_perm {l₁ l₂ : List ℚ} (h : l₁.Perm l₂) : median l₁ = median l₂ := by
  have hs : List.insertionSort (· ≤ ·) l₁ = List.insertionSort (· ≤ ·) l₂ :=
    List.eq_of_perm_of_sorted
      ((List.perm_insertionSort _ l₁).trans (h.trans (List.perm_insertionSort _ l₂).symm))
      (List.sorted_insertionSort _ l₁) (List.sorted_insertionSort _ l₂)
  simp only [median, hs]

theorem startsB_self_app : ∀ (n r : List Char), startsB n (n ++ r) = true := by
  intro n
  induction n with
  | nil => intro r; simp [startsB]
  | cons c cs ih => intro r; simp [startsB, ih]

theorem subB_seg : ∀ (pre n post : List Char), subB n (pre ++ (n ++ post)) = true := by
  intro pre
  induction pre with
  | nil =>
    intro n post
    cases n with
    | nil => cases post with
      | nil => simp [subB]
      | cons b t => simp [subB, startsB]
    | cons c cs =>
      have h : startsB (c :: cs) (c :: (cs ++ post)) = true := startsB_self_app (c :: cs) post
      simp [subB, h]
  | cons p ps ih =>
    intro n post
    have h := ih n post
    simp [subB, h]

theorem strHas_parts {hay needle : String} (pre post : List Char)
    (h : hay.data = pre ++ (needle.data ++ post)) : strHas hay needle = true := by
  unfold strHas
  rw [h]
  exact subB_seg _ _ _

theorem sepJoin_seg : ∀ {xs : List String} {m : String}, m ∈ xs →
    ∃ pre post, (sepJoin xs).data = pre ++ (m.data ++ post) := by
  intro xs
  induction xs with
  | nil => intro m h; simp at h
  | cons x tl ih =>
    intro m hm
    rcases List.mem_cons.mp hm with he | ht
    · subst he
      cases tl with
      | nil => exact ⟨[], [], by simp [sepJoin]⟩
      | cons y ys =>
        refine ⟨[], (", " ++ sepJoin (y :: ys)).data, ?_⟩
        simp [sepJoin, String.data_append, List.append_assoc]
    · cases tl with
      | nil => simp at ht
      | cons y ys =>
        obtain ⟨pre, post, hp⟩ := ih ht
        refine ⟨(x ++ ", ").data ++ pre, post, ?_⟩
        simp [sepJoin, String.data_append, hp, List.append_assoc]

theorem pyRepr_seg {xs : List String} {m : String} (hm : m ∈ xs) :
    ∃ pre post, (pyRepr xs).data = pre ++ ((wrapQ m).data ++ post) := by
  obtain ⟨pre, post, hp⟩ := sepJoin_seg (List.mem_map_of_mem wrapQ hm)
  refine ⟨("[" : String).data ++ pre, post ++ ("]" : String).data, ?_⟩
  simp [pyRepr, String.data_append, hp, List.append_assoc]

theorem incomeErrMsg_has_missing {missing names : List String} {m : String}
    (hm : m ∈ missing) : strHas (incomeErrMsg missing names) (wrapQ m) = true := by
  obtain ⟨pre, post, hp⟩ := pyRepr_seg hm
  apply strHas_parts (("Input CSV is missing expected columns: " : String).data ++ pre)
    (post ++ ("\nFound: " ++ pyRepr names).data)
  simp [incomeErrMsg, String.data_append, hp, List.append_assoc]

theorem incomeErrMsg_has_col {missing names : List String} {c : String}
    (hc : c ∈ names) : strHas (incomeErrMsg missing names) (wrapQ c) = true := by
  obtain ⟨pre, post, hp⟩ := pyRepr_seg hc
  apply strHas_parts
    (("Input CSV is missing expected columns: " ++ pyRepr missing ++ "\nFound: " : String).data ++ pre)
    post
  simp [incomeErrMsg, String.data_append, hp, List.append_assoc]

theorem abbrErrMsg_has_col {names : List String} {c : String}
    (hc : c ∈ names) : strHas (abbrErrMsg names) (wrapQ c) = true := by
  obtain ⟨pre, post, hp⟩ := pyRepr_seg hc
  apply strHas_parts (("Unexpected schema for state list. Columns: " : String).data ++ pre)
    post
  simp [abbrErrMsg, String.data_append, hp, List.append_assoc]

theorem filterMap_opt_length {α β : Type} (f : α → Option β) :
    ∀ l : List α, (l.filterMap f).length = l.countP (fun x => (f x).isSome) := by
  intro l
  induction l with
  | nil => simp
  | cons x t ih =>
    rw [List.filterMap_cons, List.countP_cons]
    cases hx : f x with
    | none => simp [hx, ih]
    | some v => simp [hx, ih]

/-! Claim theorems. -/

/-- C1 (counterexample). A table containing `income-2015` and
`income-1989a` and no `income-1989` column on which `pick_income_col`
with year 1989 returns a different column, `income_1989b`, because that
third column also matches the year pattern and has more parseable cells:
the claim's universally quantified statement fails here. -/
theorem pick_income_col_extra_1989_column :
    pickIncomeCol c1Bad 1989 = some "income_1989b" ∧
    "income-2015" ∈ c1Bad.map (·.1) ∧ "income-1989a" ∈ c1Bad.map (·.1) ∧
    "income-1989" ∉ c1Bad.map (·.1) ∧ ("income_1989b" : String) ≠ "income-1989a" := by
  decide

/-- C1 (amended). When `income-1989a` is present and no other column
matches the case-insensitive pattern `income[\s_-]?1989[a-z]?`, the
resolver returns `income-1989a`; moreover the matcher is case-insensitive:
names with the same lowercase form match alike. -/
theorem pick_income_col_1989a (cols : List Col) (vals : List (Option String))
    (hmem : ("income-1989a", vals) ∈ cols)
    (honly : ∀ p ∈ cols, matchesIncomeCol 1989 p.1 = true → p.1 = "income-1989a") :
    pickIncomeCol cols 1989 = some "income-1989a" ∧
    (∀ s t : String, s.data.map lcChar = t.data.map lcChar →
      matchesIncomeCol 1989 s = matchesIncomeCol 1989 t) := by
  constructor
  · have hmatch : matchesIncomeCol 1989 ("income-1989a" : String) = true := by decide
    have hin : ("income-1989a", vals) ∈ cols.filter (fun c => matchesIncomeCol 1989 c.1) :=
      List.mem_filter.mpr ⟨hmem, hmatch⟩
    cases hf : cols.filter (fun c => matchesIncomeCol 1989 c.1) with
    | nil => rw [hf] at hin; simp at hin
    | cons c cs =>
      have hres : pickIncomeCol cols 1989 =
          some ((maxByFirst (fun c => countParseable c.2) c cs).1) := by
        simp [pickIncomeCol, hf]
      rw [hres]
      have hmm := maxByFirst_mem (fun c => countParseable c.2) cs c
      rw [← hf] at hmm
      have hname := honly _ (List.mem_filter.mp hmm).1 (List.mem_filter.mp hmm).2
      rw [hname]
  · intro s t h
    simp [matchesIncomeCol, h]

/-- C1 (witness). On a table where `income-1989a` is the unique
1989-pattern column, it is resolved. -/
theorem pick_income_col_1989a_witness :
    pickIncomeCol c1Good 1989 = some "income-1989a" :=
  (pick_income_col_1989a c1Good [some "2"] (by decide) (by decide)).1

/-- C2. Among the columns matching the year pattern, the one with strictly
the highest count of parseable-numeric cells is returned, and the result
is a function of the ordered column list alone (determinism on ties). -/
theorem pick_income_col_strict_max (cols : List Col) (year : Nat) (c : Col)
    (hc : c ∈ cols.filter (fun p => matchesIncomeCol year p.1))
    (hmax : ∀ p ∈ cols.filter (fun p => matchesIncomeCol year p.1), p ≠ c →
      countParseable p.2 < countParseable c.2) :
    pickIncomeCol cols year = some c.1 ∧
    ∀ cols' : List Col, cols' = cols → pickIncomeCol cols' year = pickIncomeCol cols year := by
  constructor
  · cases hf : cols.filter (fun p => matchesIncomeCol year p.1) with
    | nil => rw [hf] at hc; simp at hc
    | cons c0 cs =>
      have hres : pickIncomeCol cols year =
          some ((maxByFirst (fun p => countParseable p.2) c0 cs).1) := by
        simp [pickIncomeCol, hf]
      rw [hres]
      rw [hf] at hc
      have hdom : ∀ y ∈ c0 :: cs, y ≠ c → countParseable y.2 < countParseable c.2 := by
        intro y hy hyc
        exact hmax y (by rw [hf]; exact hy) hyc
      rw [maxByFirst_strict (fun p => countParseable p.2) cs c0 c hc hdom]
  · intro cols' h
    rw [h]

/-- C2 (witness). With two 1989-pattern columns, the second having two
parseable cells against one, the second is selected. -/
theorem pick_income_col_strict_max_witness :
    pickIncomeCol c2Cols 1989 = some "income-1989a" :=
  (pick_income_col_strict_max c2Cols 1989 ("income-1989a", [some "1", some "2"])
    (by decide) (by decide)).1

/-- C3 (counterexample). The column `State Abbr` and the code's own alias
`state_abbr` have equal normalized forms (lowercase, separators stripped),
so under the claim the matcher must find it — yet `first_match` returns
the not-found signal, because it only lowercases column names and never
strips separators (`find_col`, by contrast, does match). -/
theorem first_match_misses_separator_variant :
    first_match ["State Abbr"] stateAliases = none ∧
    normKey "State Abbr" = normKey "state_abbr" ∧ "state_abbr" ∈ stateAliases ∧
    find_col ["State Abbr"] stateAliases = some "State Abbr" := by
  decide

/-- C3 (amended). `find_col` compares both sides after lowercasing and
stripping spaces, underscores and hyphens, succeeds exactly when some
alias and some column agree under that normalization, and its result
corresponds to the first alias with a normalized match (aliases scanned
in order); `first_match` only lowercases the column names and matches
the aliases verbatim against those lowercased names, again returning the
column for the first option that has a match. -/
theorem column_matcher_characterization :
    (∀ (cols aliases : List String) (c : String),
        find_col cols aliases = some c → c ∈ cols ∧ ∃ a ∈ aliases, normKey a = normKey c) ∧
    (∀ (cols aliases : List String),
        (∃ a ∈ aliases, ∃ c ∈ cols, normKey a = normKey c) →
        (find_col cols aliases).isSome = true) ∧
    (∀ (cols opts : List String) (c : String),
        first_match cols opts = some c → c ∈ cols ∧ lcStr c ∈ opts) ∧
    (∀ (cols opts : List String),
        (∃ o ∈ opts, ∃ c ∈ cols, lcStr c = o) → (first_match cols opts).isSome = true) ∧
    (∀ (cols aliases : List String) (i : Nat) (a : String),
        aliases[i]? = some a →
        (∃ c ∈ cols, normKey c = normKey a) →
        (∀ j a', j < i → aliases[j]? = some a' → ∀ c' ∈ cols, normKey c' ≠ normKey a') →
        ∃ c, find_col cols aliases = some c ∧ c ∈ cols ∧ normKey c = normKey a) ∧
    (∀ (cols opts : List String) (i : Nat) (o : String),
        opts[i]? = some o →
        (∃ c ∈ cols, lcStr c = o) →
        (∀ j o', j < i → opts[j]? = some o' → ∀ c' ∈ cols, lcStr c' ≠ o') →
        ∃ c, first_match cols opts = some c ∧ c ∈ cols ∧ lcStr c = o) := by
  refine ⟨?_, ?_, ?_, ?_, ?_, ?_⟩
  · intro cols aliases c h
    obtain ⟨a, ha, hfa⟩ := findSome?_ex h
    have hmem := List.mem_of_find?_eq_some hfa
    have hp := List.find?_some hfa
    exact ⟨List.mem_reverse.mp hmem, a, ha, (beq_iff_eq.mp hp).symm⟩
  · intro cols aliases h
    obtain ⟨a, ha, c, hc, he⟩ := h
    apply findSome?_isSome_of ha
    rw [List.find?_isSome]
    exact ⟨c, List.mem_reverse.mpr hc, beq_iff_eq.mpr he.symm⟩
  · intro cols opts c h
    obtain ⟨o, ho, hfo⟩ := findSome?_ex h
    have hmem := List.mem_of_find?_eq_some hfo
    have hp := List.find?_some hfo
    refine ⟨List.mem_reverse.mp hmem, ?_⟩
    rw [beq_iff_eq.mp hp]
    exact ho
  · intro cols opts h
    obtain ⟨o, ho, c, hc, he⟩ := h
    apply findSome?_isSome_of ho
    rw [List.find?_isSome]
    exact ⟨c, List.mem_reverse.mpr hc, beq_iff_eq.mpr he⟩
  · intro cols aliases i a hai hex hpre
    have hf : ((cols.reverse).find? (fun c => normKey c == normKey a)).isSome = true := by
      rw [List.find?_isSome]
      obtain ⟨c, hc, he⟩ := hex
      exact ⟨c, List.mem_reverse.mpr hc, beq_iff_eq.mpr he⟩
    have hpre' : ∀ j a', j < i → aliases[j]? = some a' →
        (cols.reverse).find? (fun c => normKey c == normKey a') = none := by
      intro j a' hj ha'
      rw [List.find?_eq_none]
      intro c hc hbeq
      exact hpre j a' hj ha' c (List.mem_reverse.mp hc) (beq_iff_eq.mp hbeq)
    obtain ⟨c, hfind, hfc⟩ := findSome?_first aliases i a hai hf hpre'
    have hmem := List.mem_reverse.mp (List.mem_of_find?_eq_some hfc)
    have hp : normKey c = normKey a := by simpa using List.find?_some hfc
    exact ⟨c, hfind, hmem, hp⟩
  · intro cols opts i o hoi hex hpre
    have hf : ((cols.reverse).find? (fun c => lcStr c == o)).isSome = true := by
      rw [List.find?_isSome]
      obtain ⟨c, hc, he⟩ := hex
      exact ⟨c, List.mem_reverse.mpr hc, beq_iff_eq.mpr he⟩
    have hpre' : ∀ j o', j < i → opts[j]? = some o' →
        (cols.reverse).find? (fun c => lcStr c == o') = none := by
      intro j o' hj ho'
      rw [List.find?_eq_none]
      intro c hc hbeq
      exact hpre j o' hj ho' c (List.mem_reverse.mp hc) (beq_iff_eq.mp hbeq)
    obtain ⟨c, hfind, hfc⟩ := findSome?_first opts i o hoi hf hpre'
    have hmem := List.mem_reverse.mp (List.mem_of_find?_eq_some hfc)
    have hp : lcStr c = o := by simpa using List.find?_some hfc
    exact ⟨c, hfind, hmem, hp⟩

/-- C3 (witness). A column differing from an alias only by case and a
hyphen is found by `find_col`; and with columns matching the first alias
`name` and the third alias `statename` alike, the resolved column is one
matching the first alias. -/
theorem column_matcher_characterization_witness :
    (("Alpha-2" : String) ∈ ["State Name", "Alpha-2"] ∧
      ∃ a ∈ a2Aliases, normKey a = normKey "Alpha-2") ∧
    (∃ c, find_col ["Statename", "Name"] nameAliases = some c ∧
      c ∈ ["Statename", "Name"] ∧ normKey c = normKey "name") :=
  ⟨column_matcher_characterization.1 ["State Name", "Alpha-2"] a2Aliases "Alpha-2" (by decide),
   column_matcher_characterization.2.2.2.2.1 ["Statename", "Name"] nameAliases 0 "name"
     (by decide) (by decide)
     (fun j a' hj _ => absurd hj (Nat.not_lt_zero j))⟩

/-- C5. The aggregate found for a state carries exactly the statistical
median of that group's non-null values, per year independently, and an
all-null year yields a null median. -/
theorem state_medians_spec (rows : List Row) (s : String) (agg : Agg)
    (h : (stateMedians rows).find? (fun a => a.state == s) = some agg) :
    agg.median1989 = median ((groupRows rows s).filterMap (·.income1989)) ∧
    agg.median2015 = median ((groupRows rows s).filterMap (·.income2015)) ∧
    ((∀ r ∈ groupRows rows s, r.income1989 = none) → agg.median1989 = none) := by
  have hmem : agg ∈ (statesOf rows).map (mkAgg rows) := List.mem_of_find?_eq_some h
  have hp := List.find?_some h
  obtain ⟨k, hk, hke⟩ := List.mem_map.mp hmem
  have hks : agg.state = k := by rw [← hke]; rfl
  have hseq : agg.state = s := beq_iff_eq.mp hp
  have hkk : k = s := by rw [← hks, hseq]
  have hagg : mkAgg rows s = agg := by rw [← hkk]; exact hke
  refine ⟨?_, ?_, ?_⟩
  · rw [← hagg]; rfl
  · rw [← hagg]; rfl
  · intro hall
    rw [← hagg]
    show median ((groupRows rows s).filterMap (·.income1989)) = none
    have hnil : (groupRows rows s).filterMap (·.income1989) = [] :=
      List.filterMap_eq_nil_iff.mpr hall
    rw [hnil]
    rfl

/-- C5 (witness). The NE example: 1989 values 10, 20, 30 and 2015 values
40, 50, 60 give medians 20 and 50 with three counties. -/
theorem state_medians_spec_witness :
    (stateMedians neRows).find? (fun a => a.state == "NE") = some neAgg ∧
    neAgg.median1989 = some 20 ∧ neAgg.median2015 = some 50 ∧ neAgg.nCounties = 3 := by
  have h : (stateMedians neRows).find? (fun a => a.state == "NE") = some neAgg := by decide
  refine ⟨h, ?_, ?_, by decide⟩
  · rw [(state_medians_spec neRows "NE" neAgg h).1]
    decide
  · rw [(state_medians_spec neRows "NE" neAgg h).2.1]
    decide

/-- C6 (counterexample). With two NE records, one of them lacking a county
name, `("county", "count")` reports 1 — the aggregate's county count is
not the number of records in the group. -/
theorem county_count_skips_null_county :
    (stateMedians c6Rows).map (·.nCounties) = [1] ∧ (groupRows c6Rows "NE").length = 2 := by
  decide

/-- C6 (amended). The aggregate's county count is the number of records in
the group whose county field is non-null; null income fields do not affect
it. -/
theorem county_count_nonnull (rows : List Row) (s : String) (agg : Agg)
    (h : (stateMedians rows).find? (fun a => a.state == s) = some agg) :
    agg.nCounties = ((groupRows rows s).filterMap (·.county)).length ∧
    agg.nCounties = (groupRows rows s).countP (fun r => r.county.isSome) := by
  have hmem : agg ∈ (statesOf rows).map (mkAgg rows) := List.mem_of_find?_eq_some h
  have hp := List.find?_some h
  obtain ⟨k, hk, hke⟩ := List.mem_map.mp hmem
  have hks : agg.state = k := by rw [← hke]; rfl
  have hseq : agg.state = s := beq_iff_eq.mp hp
  have hkk : k = s := by rw [← hks, hseq]
  have hagg : mkAgg rows s = agg := by rw [← hkk]; exact hke
  constructor
  · rw [← hagg]; rfl
  · rw [← hagg]
    exact filterMap_opt_length (·.county) (groupRows rows s)

/-- C6 (witness). The aggregate for the two NE records counts only the
record with a county name. -/
theorem county_count_nonnull_witness :
    (stateMedians c6Rows).find? (fun a => a.state == "NE") = some (mkAgg c6Rows "NE") ∧
    (mkAgg c6Rows "NE").nCounties = 1 ∧ (groupRows c6Rows "NE").length = 2 := by
  have h : (stateMedians c6Rows).find? (fun a => a.state == "NE") =
      some (mkAgg c6Rows "NE") := by rfl
  refine ⟨h, ?_, by decide⟩
  rw [(county_count_nonnull c6Rows "NE" _ h).1]
  decide

/-- C7. A feature whose name misses the abbreviation map, or whose code
misses the aggregate dict, is styled with the no-data style (gray border,
no fill, reduced opacity); the (total) styling of any list of features
treats each feature independently, so the other features are unaffected. -/
theorem style_function_no_data (n2a : List (String × String)) (med : List (String × Option ℚ))
    (cmap : Option ℚ → String) (name : String)
    (h : dictGet n2a name = none ∨
      ∃ a2, dictGet n2a name = some a2 ∧ dictGet med a2 = none) :
    style_function n2a med cmap name = noDataStyle ∧
    ∀ pre post : List String,
      (pre ++ name :: post).map (style_function n2a med cmap) =
        pre.map (style_function n2a med cmap) ++
          style_function n2a med cmap name :: post.map (style_function n2a med cmap) := by
  constructor
  · rcases h with h | ⟨a2, h1, h2⟩
    · simp [style_function, h]
    · simp [style_function, h1, h2]
  · intro pre post
    simp

/-- C7 (witness). The feature named Atlantis, absent from the map, gets
the no-data style. -/
theorem style_function_no_data_witness :
    style_function c7Map c7Med c7Cmap "Atlantis" = noDataStyle :=
  (style_function_no_data c7Map c7Med c7Cmap "Atlantis" (Or.inl (by decide))).1

/-- C9. For a feature whose name resolves to a code with an entry in the
2015-median dict, the value interpolated into the tooltip and the value
fed to the colormap for the fill are the same dict value. -/
theorem tooltip_matches_fill (n2a : List (String × String)) (med : List (String × Option ℚ))
    (cmap : Option ℚ → String) (name a2 : String) (v : Option ℚ)
    (h1 : dictGet n2a name = some a2) (h2 : dictGet med a2 = some v) :
    tooltipVal2015 n2a med name = v ∧
    style_function n2a med cmap name = ⟨some (cmap v), 4/5, 7/10, "white"⟩ := by
  constructor
  · simp [tooltipVal2015, h1, h2]
  · simp [style_function, h1, h2]

/-- C9 (witness). Nebraska resolves to NE with median 50: tooltip value
and colormap argument agree. -/
theorem tooltip_matches_fill_witness :
    tooltipVal2015 c7Map c7Med "Nebraska" = some 50 ∧
    style_function c7Map c7Med c7Cmap "Nebraska" =
      ⟨some (c7Cmap (some 50)), 4/5, 7/10, "white"⟩ :=
  tooltip_matches_fill c7Map c7Med c7Cmap "Nebraska" "NE" (some 50) (by decide) (by decide)

/-- C8. The shown table is the state's records projected and sorted by
county name followed by exactly one synthetic median row; the sorted part
is a permutation of the matching records and is sorted; the median row's
values are the medians of the filtered rows' columns; and the spec's NE
example produces Douglas, Lancaster, then the (55, 95) median row. -/
theorem df_show_spec :
    (∀ (rows : List Row) (s : String),
      df_show rows s = df_state rows s ++
        [(some medLabel,
          median ((df_state rows s).filterMap (fun p => p.2.1)),
          median ((df_state rows s).filterMap (fun p => p.2.2)))] ∧
      (df_state rows s).Perm ((rows.filter (fun r => r.state == some s)).map proj) ∧
      List.Sorted entryLE (df_state rows s) ∧
      median ((df_state rows s).filterMap (fun p => p.2.1)) =
        median (((rows.filter (fun r => r.state == some s)).map proj).filterMap
          (fun p => p.2.1)) ∧
      median ((df_state rows s).filterMap (fun p => p.2.2)) =
        median (((rows.filter (fun r => r.state == some s)).map proj).filterMap
          (fun p => p.2.2))) ∧
    df_show exRows "NE" =
      [(some "Douglas", some 60, some 100), (some "Lancaster", some 50, some 90),
       (some medLabel, some 55, some 95)] := by
  constructor
  · intro rows s
    refine ⟨rfl, ?_, ?_, ?_, ?_⟩
    · exact List.perm_insertionSort _ _
    · exact List.sorted_insertionSort _ _
    · exact median_perm ((List.perm_insertionSort _ _).filterMap _)
    · exact median_perm ((List.perm_insertionSort _ _).filterMap _)
  · have hsorted : df_state exRows "NE" =
        [(some "Douglas", some 60, some 100), (some "Lancaster", some 50, some 90)] := by
      decide
    have h1 : df_show exRows "NE" = df_state exRows "NE" ++
        [(some medLabel,
          median ((df_state exRows "NE").filterMap (fun p => p.2.1)),
          median ((df_state exRows "NE").filterMap (fun p => p.2.2)))] := rfl
    rw [h1, hsorted]
    have hm1 : median [(60 : ℚ), 50] = some 55 := by
      have hs : List.insertionSort (· ≤ ·) [(60 : ℚ), 50] = [50, 60] := by
        norm_num [List.insertionSort, List.orderedInsert]
      simp only [median, hs]
      norm_num
    have hm2 : median [(100 : ℚ), 90] = some 95 := by
      have hs : List.insertionSort (· ≤ ·) [(100 : ℚ), 90] = [90, 100] := by
        norm_num [List.insertionSort, List.orderedInsert]
      simp only [median, hs]
      norm_num
    simp [hm1, hm2]

/-- C10. An income cell that does not parse as a number yields the same
record as a missing cell (coerced to null at load time), and a record with
null incomes leaves both of its state's medians unchanged — it never
contributes a zero or any other value to an aggregate. -/
theorem unparseable_is_null_and_excluded :
    (∀ (st cty i15 : Option String) (u : String), parseNumeric u = none →
        mkRow st cty (some u) i15 = mkRow st cty none i15) ∧
    (∀ (st cty i89 : Option String) (u : String), parseNumeric u = none →
        mkRow st cty i89 (some u) = mkRow st cty i89 none) ∧
    (∀ (r : Row) (rows : List Row) (s : String),
      r.income1989 = none → r.income2015 = none →
      (mkAgg (r :: rows) s).median1989 = (mkAgg rows s).median1989 ∧
      (mkAgg (r :: rows) s).median2015 = (mkAgg rows s).median2015) := by
  refine ⟨?_, ?_, ?_⟩
  · intro st cty i15 u h
    simp [mkRow, h]
  · intro st cty i89 u h
    simp [mkRow, h]
  · intro r rows s h89 h15
    have hg : groupRows (r :: rows) s =
        if (r.state == some s) = true then r :: groupRows rows s else groupRows rows s := by
      simp [groupRows, List.filter_cons]
    by_cases hs : (r.state == some s) = true
    · rw [if_pos hs] at hg
      constructor
      · simp [mkAgg, hg, List.filterMap_cons, h89]
      · simp [mkAgg, hg, List.filterMap_cons, h15]
    · rw [if_neg hs] at hg
      constructor <;> simp [mkAgg, hg]

/-- C10 (witness). The record loaded from the unparseable cell "abc"
equals the record loaded from a missing cell, and prepending a null-income
record to the NE group leaves its 1989 median unchanged. -/
theorem unparseable_is_null_and_excluded_witness :
    c10Bad = mkRow (some "NE") (some "Arthur") none none ∧
    (mkAgg (c10Bad :: c10Rows) "NE").median1989 = (mkAgg c10Rows "NE").median1989 := by
  constructor
  · exact unparseable_is_null_and_excluded.1 (some "NE") (some "Arthur") none "abc" (by decide)
  · exact (unparseable_is_null_and_excluded.2.2 c10Bad c10Rows "NE"
      (by decide) (by decide)).1

/-- C4 (counterexample). With abbreviation columns foo and bar the load
halts with the schema error, which lists the available columns but names
neither missing semantic field: the message contains no occurrence of
"name" nor of "abbreviation". -/
theorem abbr_error_omits_missing_fields :
    resolveAbbrCols c4AbbrNames = .error (abbrErrMsg c4AbbrNames) ∧
    strHas (abbrErrMsg c4AbbrNames) "name" = false ∧
    strHas (abbrErrMsg c4AbbrNames) "abbreviation" = false ∧
    strHas (abbrErrMsg c4AbbrNames) (wrapQ "foo") = true ∧
    strHas (abbrErrMsg c4AbbrNames) (wrapQ "bar") = true :=
  ⟨rfl, by decide, by decide, by decide, by decide⟩

/-- C4 (amended). On any unresolvable income field the pipeline halts
before any aggregation with an error listing the missing semantic-field
markers and every available column name; on an unresolvable abbreviation
field it halts with an error listing the available column names (only). -/
theorem resolver_failure_halts (cols : List Col) (abbrNames : List String) :
    ((pickIncomeCol cols 2015 = none ∨ pickIncomeCol cols 1989 = none ∨
        first_match (cols.map (·.1)) stateAliases = none ∨
        first_match (cols.map (·.1)) countyAliases = none) →
      resolveIncomeCols cols = .error (incomeErrMsg (missingOf cols) (cols.map (·.1))) ∧
      missingOf cols ≠ [] ∧
      (∀ m ∈ missingOf cols,
        strHas (incomeErrMsg (missingOf cols) (cols.map (·.1))) (wrapQ m) = true) ∧
      (∀ c ∈ cols.map (·.1),
        strHas (incomeErrMsg (missingOf cols) (cols.map (·.1))) (wrapQ c) = true) ∧
      runPipeline cols abbrNames =
        .error (incomeErrMsg (missingOf cols) (cols.map (·.1)))) ∧
    ((find_col abbrNames nameAliases = none ∨ find_col abbrNames a2Aliases = none) →
      resolveAbbrCols abbrNames = .error (abbrErrMsg abbrNames) ∧
      (∀ c ∈ abbrNames, strHas (abbrErrMsg abbrNames) (wrapQ c) = true) ∧
      ∀ aggs, runPipeline cols abbrNames ≠ .ok aggs) := by
  constructor
  · intro h
    have herr : resolveIncomeCols cols =
        .error (incomeErrMsg (missingOf cols) (cols.map (·.1))) := by
      rcases h15 : pickIncomeCol cols 2015 with _ | a <;>
        rcases h89 : pickIncomeCol cols 1989 with _ | b <;>
        rcases hst : first_match (cols.map (·.1)) stateAliases with _ | c <;>
        rcases hct : first_match (cols.map (·.1)) countyAliases with _ | d <;>
        simp [resolveIncomeCols, h15, h89, hst, hct] at h ⊢
    have hne : missingOf cols ≠ [] := by
      intro hnil
      rcases h with h | h | h | h <;>
        simp [missingOf, h, List.append_eq_nil] at hnil
    refine ⟨herr, hne, fun m hm => incomeErrMsg_has_missing hm,
      fun c hc => incomeErrMsg_has_col hc, ?_⟩
    simp [runPipeline, herr]
  · intro h
    have herr2 : resolveAbbrCols abbrNames = .error (abbrErrMsg abbrNames) := by
      rcases hn : find_col abbrNames nameAliases with _ | n <;>
        rcases ha : find_col abbrNames a2Aliases with _ | a <;>
        simp [resolveAbbrCols, hn, ha] at h ⊢
    refine ⟨herr2, fun c hc => abbrErrMsg_has_col hc, ?_⟩
    intro aggs hok
    unfold runPipeline at hok
    cases hri : resolveIncomeCols cols with
    | error e => rw [hri] at hok; simp at hok
    | ok t =>
      obtain ⟨c15, c89, cst, ccty⟩ := t
      rw [hri] at hok
      simp [herr2] at hok

/-- C4 (witness). A table with only a county column halts the load with
the income-schema error mentioning the missing state marker; the foo/bar
abbreviation table halts with the abbreviation-schema error. -/
theorem resolver_failure_halts_witness :
    resolveIncomeCols c4IncomeCols =
      .error (incomeErrMsg (missingOf c4IncomeCols) (c4IncomeCols.map (·.1))) ∧
    strHas (incomeErrMsg (missingOf c4IncomeCols) (c4IncomeCols.map (·.1)))
      (wrapQ "state") = true ∧
    resolveAbbrCols c4AbbrNames = .error (abbrErrMsg c4AbbrNames) := by
  have h1 := (resolver_failure_halts c4IncomeCols c4AbbrNames).1 (Or.inl (by decide))
  have h2 := (resolver_failure_halts c4IncomeCols c4AbbrNames).2 (Or.inl (by decide))
  exact ⟨h1.1, h1.2.2.1 "state" (by decide), h2.1⟩

end App
